import Mathlib

/-!
Verification development for the gridscape spatial idea-graph engine.

The definitions below are a shallow embedding of the engine's source:
geometry (`isOverlap`, `findValidSpot`, the toolbar nudge of
`handleBringToFront`), the node store (`Idea`, version append / switch /
art attach), the viewport (`handleZoom`, `screenToWorld`), the provider
wrappers (`getSuggestions`, `getQuadrantAsciiArt`) and the per-node
generation chain (`generateContentForIdea`).  JavaScript numbers are
modelled as rationals, JS truthiness of strings as non-emptiness, and
nullable / optional fields as `Option`.
-/

namespace Gridscape

/-- Constant `GRID_GAP = 24` from the source. -/
def GRID_GAP : ℚ := 24

/-- Constant `TOOLBAR_HEIGHT = 60` from the source. -/
def TOOLBAR_HEIGHT : ℚ := 60

/-- 2D point, world or screen space. -/
structure Point where
  x : ℚ
  y : ℚ
deriving DecidableEq, Repr

/-- Axis-aligned rectangle `{x, y, width, height}`. -/
structure Rect where
  x : ℚ
  y : ℚ
  width : ℚ
  height : ℚ
deriving DecidableEq, Repr

/-- One immutable content snapshot of a node (`IdeaVersion` in the source);
`asciiArt`, `bridgeText` and `terms` are optional fields. -/
structure IdeaVersion where
  text : String
  asciiArt : Option String
  bridgeText : Option String
  terms : Option (List String)
deriving DecidableEq, Repr

/-- An idea node (the `Idea` interface): a rectangle plus live projection
fields, the append-only `versions` list, the selected version index
(`-1` before the first version) and lifecycle flags. -/
structure Idea where
  id : ℕ
  x : ℚ
  y : ℚ
  width : ℚ
  height : ℚ
  text : String
  asciiArt : Option String
  bridgeText : Option String
  terms : List String
  versions : List IdeaVersion
  currentVersionIndex : ℤ
  isLoading : Bool
  isAsciiLoading : Bool
  error : Option String
  isCollapsed : Bool
deriving DecidableEq, Repr

/-- A clickable branch proposal (the `Suggestion` interface). -/
structure Suggestion where
  id : String
  sourceId : ℕ
  text : String
  x : ℚ
  y : ℚ
  width : ℚ
  height : ℚ
deriving DecidableEq, Repr

/-- JS array indexing `l[i]` with a possibly negative number index:
`undefined` (here `none`) outside `[0, l.length)`. -/
def listGetInt {α : Type} (l : List α) (i : ℤ) : Option α :=
  if 0 ≤ i then l.get? i.toNat else none

/-- JS element assignment `l[i] = a` guarded by an index-validity check:
out-of-range writes leave the list unchanged. -/
def listSetInt {α : Type} (l : List α) (i : ℤ) (a : α) : List α :=
  if 0 ≤ i then l.set i.toNat a else l

/-- `isOverlap` from the source: the candidate rectangle, padded by `gap`,
fails to be separated from some existing node on every axis. -/
def isOverlap (ideas : List Idea) (newRect : Rect) (gap : ℚ) : Bool :=
  ideas.any fun idea =>
    !(decide (newRect.x + newRect.width + gap ≤ idea.x) ||
      decide (newRect.x ≥ idea.x + idea.width + gap) ||
      decide (newRect.y + newRect.height + gap ≤ idea.y) ||
      decide (newRect.y ≥ idea.y + idea.height + gap))

/-- The translated test rectangle `{...rect, x: rect.x + dx*step, y: rect.y + dy*step}`. -/
def translateRect (rect : Rect) (offset : ℤ × ℤ) (step : ℚ) : Rect :=
  { rect with x := rect.x + offset.1 * step, y := rect.y + offset.2 * step }

/-- The offsets `(x, y)` visited for ring radius `r`, in the source's loop
order (`x` from `-r` to `r` outer, `y` from `-r` to `r` inner), keeping
only perimeter cells (`|x| = r` or `|y| = r`). -/
def ringOffsets (r : ℕ) : List (ℤ × ℤ) :=
  (List.range (2 * r + 1)).flatMap fun xi =>
    (List.range (2 * r + 1)).filterMap fun yi =>
      let x : ℤ := (xi : ℤ) - (r : ℤ)
      let y : ℤ := (yi : ℤ) - (r : ℤ)
      if x.natAbs = r ∨ y.natAbs = r then some (x, y) else none

/-- All offsets visited by `findValidSpot`, rings `r = 1..40` in order. -/
def searchOffsets : List (ℤ × ℤ) :=
  (List.range 40).flatMap fun i => ringOffsets (i + 1)

/-- `findValidSpot` from the source: return the rectangle unchanged when it
does not overlap; otherwise return the first ring-search translate (step
20) that does not overlap; fall back to the original rectangle. -/
def findValidSpot (ideas : List Idea) (rect : Rect) : Rect :=
  if !(isOverlap ideas rect GRID_GAP) then rect
  else
    match searchOffsets.find?
        (fun off => !(isOverlap ideas (translateRect rect off 20) GRID_GAP)) with
    | some off => translateRect rect off 20
    | none => rect

theorem find?_split {α : Type} (p : α → Bool) :
    ∀ (l : List α) (a : α), l.find? p = some a →
      ∃ pre post, l = pre ++ a :: post ∧ (∀ x ∈ pre, p x = false) ∧ p a = true := by
  intro l
  induction l with
  | nil => intro a h; simp [List.find?] at h
  | cons b t ih =>
    intro a h
    cases hb : p b with
    | true =>
      rw [List.find?_cons_of_pos _ hb] at h
      cases h
      exact ⟨[], t, rfl, by simp, hb⟩
    | false =>
      rw [List.find?_cons_of_neg _ (by simp [hb])] at h
      obtain ⟨pre, post, he, hpre, hpa⟩ := ih a h
      refine ⟨b :: pre, post, by simp [he], ?_, hpa⟩
      intro x hx
      rcases List.mem_cons.mp hx with hx | hx
      · exact hx ▸ hb
      · exact hpre x hx

theorem mem_searchOffsets_ring {q : ℤ × ℤ} (h : q ∈ searchOffsets) :
    ∃ r : ℕ, 1 ≤ r ∧ r ≤ 40 ∧ (q.1.natAbs = r ∨ q.2.natAbs = r) := by
  simp only [searchOffsets, List.mem_flatMap, List.mem_range] at h
  obtain ⟨i, hi, hq⟩ := h
  refine ⟨i + 1, Nat.le_add_left _ _, by omega, ?_⟩
  simp only [ringOffsets, List.mem_flatMap, List.mem_filterMap, List.mem_range] at hq
  obtain ⟨xi, _, yi, _, hcase⟩ := hq
  split at hcase
  · rename_i hcond
    cases hcase
    exact hcond
  · exact absurd hcase (by simp)

/-- Claim C1: `findValidSpot` never changes width or height; when the
desired rectangle already clears all existing nodes with the gap margin it
is returned byte-identically; otherwise the result is either the translate
by `(dx*20, dy*20)` of the first clearing offset in the ring scan (every
scanned offset lies on the perimeter of a ring of radius `1 ≤ r ≤ 40`), or
the original rectangle when every scanned offset still overlaps — the
operation is total and never fails. -/
theorem c1_findValidSpot (ideas : List Idea) (rect : Rect) :
    ((findValidSpot ideas rect).width = rect.width ∧
     (findValidSpot ideas rect).height = rect.height) ∧
    (isOverlap ideas rect GRID_GAP = false → findValidSpot ideas rect = rect) ∧
    (isOverlap ideas rect GRID_GAP = true →
      ((∃ pre off post, searchOffsets = pre ++ off :: post ∧
          isOverlap ideas (translateRect rect off 20) GRID_GAP = false ∧
          (∀ q ∈ pre, isOverlap ideas (translateRect rect q 20) GRID_GAP = true) ∧
          findValidSpot ideas rect = translateRect rect off 20) ∨
       ((∀ q ∈ searchOffsets, isOverlap ideas (translateRect rect q 20) GRID_GAP = true) ∧
          findValidSpot ideas rect = rect))) ∧
    (∀ q ∈ searchOffsets, ∃ r : ℕ, 1 ≤ r ∧ r ≤ 40 ∧ (q.1.natAbs = r ∨ q.2.natAbs = r)) := by
  refine ⟨?_, ?_, ?_, fun q hq => mem_searchOffsets_ring hq⟩
  · unfold findValidSpot
    split
    · exact ⟨rfl, rfl⟩
    · split
      · exact ⟨rfl, rfl⟩
      · exact ⟨rfl, rfl⟩
  · intro h
    simp [findValidSpot, h]
  · intro h
    rw [findValidSpot]
    simp only [h, Bool.not_true, Bool.false_eq_true, if_false]
    cases hfind : searchOffsets.find?
        (fun off => !(isOverlap ideas (translateRect rect off 20) GRID_GAP)) with
    | none =>
      right
      refine ⟨?_, rfl⟩
      intro q hq
      have := List.find?_eq_none.mp hfind q hq
      simpa using this
    | some off =>
      left
      obtain ⟨pre, post, he, hpre, hoff⟩ := find?_split _ _ _ hfind
      refine ⟨pre, off, post, he, by simpa using hoff, ?_, rfl⟩
      intro q hq
      have := hpre q hq
      simpa using this

/-- JS `str || undefined` on a nullable string: the empty string is falsy
and collapses to `undefined` (here `none`). -/
def jsStringOrNone (o : Option String) : Option String :=
  match o with
  | some st => if st = "" then none else some st
  | none => none

/-- The parsed reply of the main-content provider call
(`GeminiMainContentResponse` in the source). -/
structure GeminiMainContentResponse where
  text : String
  bridge : Option String
  terms : List String
deriving DecidableEq, Repr

/-- The per-idea updater of the main-content success path of
`generateContentForIdea`: for the matching id, append a new version built
from the reply, mirror its fields onto the live projection, point
`currentVersionIndex` at the new last index and clear `isLoading`. -/
def appendMainIdea (id : ℕ) (data : GeminiMainContentResponse) (i : Idea) : Idea :=
  if i.id = id then
    let newVersion : IdeaVersion :=
      { text := data.text, asciiArt := none,
        bridgeText := jsStringOrNone data.bridge, terms := some data.terms }
    let updatedVersions := i.versions ++ [newVersion]
    { i with
      text := data.text,
      bridgeText := jsStringOrNone data.bridge,
      terms := data.terms,
      versions := updatedVersions,
      currentVersionIndex := (updatedVersions.length : ℤ) - 1,
      isLoading := false }
  else i

/-- The per-idea updater of the art-success path of
`generateContentForIdea`: for the matching id, store the art string on the
live projection, on the version at the node's current
`currentVersionIndex` when that index is valid, and clear
`isAsciiLoading`. -/
def attachArtIdea (id : ℕ) (ascii : String) (i : Idea) : Idea :=
  if i.id = id then
    let updatedVersions :=
      match listGetInt i.versions i.currentVersionIndex with
      | some v => listSetInt i.versions i.currentVersionIndex { v with asciiArt := some ascii }
      | none => i.versions
    { i with asciiArt := some ascii, versions := updatedVersions, isAsciiLoading := false }
  else i

/-- The per-idea updater of the `catch` branch of `generateContentForIdea`:
record the error message and clear both loading flags. -/
def errorIdea (id : ℕ) (msg : String) (i : Idea) : Idea :=
  if i.id = id then { i with error := some msg, isLoading := false, isAsciiLoading := false }
  else i

/-- The per-idea updater of `handleSwitchVersion`: guarded by
`i.id === id && i.versions[index]`, set `currentVersionIndex` and mirror
that version's fields onto the live projection (`terms || []`). -/
def switchVersionIdea (id : ℕ) (index : ℤ) (i : Idea) : Idea :=
  if i.id = id then
    match listGetInt i.versions index with
    | some v =>
      { i with
        currentVersionIndex := index,
        text := v.text,
        asciiArt := v.asciiArt,
        bridgeText := v.bridgeText,
        terms := v.terms.getD [] }
    | none => i
  else i

/-- `handleSwitchVersion` from the source, as the `setIdeas` updater. -/
def handleSwitchVersion (id : ℕ) (index : ℤ) (ideas : List Idea) : List Idea :=
  ideas.map (switchVersionIdea id index)

/-- Claim C8: out-of-range switches are identity on the node (and on the
whole list); in-range switches set `currentVersionIndex` and mirror the
selected version's `text`, `asciiArt`, `bridgeText` and `terms` (absent
`terms` becomes `[]`) onto the live projection without touching
`versions`. -/
theorem c8_handleSwitchVersion :
    (∀ (id : ℕ) (index : ℤ) (ideas : List Idea),
        handleSwitchVersion id index ideas = ideas.map (switchVersionIdea id index)) ∧
    (∀ (id : ℕ) (index : ℤ) (i : Idea),
        (i.id ≠ id ∨ index < 0 ∨ (i.versions.length : ℤ) ≤ index) →
        switchVersionIdea id index i = i) ∧
    (∀ (id : ℕ) (index : ℤ) (i : Idea),
        i.id = id → 0 ≤ index → ∀ hlt : index.toNat < i.versions.length,
        switchVersionIdea id index i =
          { i with
            currentVersionIndex := index,
            text := (i.versions.get ⟨index.toNat, hlt⟩).text,
            asciiArt := (i.versions.get ⟨index.toNat, hlt⟩).asciiArt,
            bridgeText := (i.versions.get ⟨index.toNat, hlt⟩).bridgeText,
            terms := ((i.versions.get ⟨index.toNat, hlt⟩).terms).getD [] }) ∧
    (∀ (id : ℕ) (index : ℤ) (ideas : List Idea),
        (∀ i ∈ ideas, index < 0 ∨ (i.versions.length : ℤ) ≤ index) →
        handleSwitchVersion id index ideas = ideas) := by
  have hout : ∀ (id : ℕ) (index : ℤ) (i : Idea),
      (i.id ≠ id ∨ index < 0 ∨ (i.versions.length : ℤ) ≤ index) →
      switchVersionIdea id index i = i := by
    intro id index i h
    unfold switchVersionIdea
    rcases h with h | h | h
    · simp [h]
    · have : listGetInt i.versions index = none := by
        unfold listGetInt
        rw [if_neg (by omega)]
      split
      · rw [this]
      · rfl
    · have : listGetInt i.versions index = none := by
        unfold listGetInt
        split
        · apply List.get?_eq_none.mpr
          omega
        · rfl
      split
      · rw [this]
      · rfl
  refine ⟨fun _ _ _ => rfl, hout, ?_, ?_⟩
  · intro id index i hid h0 hlt
    have hget : listGetInt i.versions index = some (i.versions.get ⟨index.toNat, hlt⟩) := by
      unfold listGetInt
      rw [if_pos h0, List.get?_eq_get hlt]
    unfold switchVersionIdea
    rw [if_pos hid, hget]
  · intro id index ideas h
    unfold handleSwitchVersion
    conv_rhs => rw [← List.map_id ideas]
    exact List.map_congr_left fun i hi => hout id index i (Or.inr (h i hi))

/-- Concrete instantiation of the C8 theorem: a one-version node is left
unchanged by an out-of-range switch (index 5) and updated by an in-range
one (index 0). -/
def sampleVersion : IdeaVersion :=
  { text := "alpha", asciiArt := some "art", bridgeText := none, terms := none }

/-- A concrete node used to instantiate the claim theorems. -/
def sampleIdea : Idea :=
  { id := 0, x := 0, y := 0, width := 300, height := 200,
    text := "alpha", asciiArt := none, bridgeText := none, terms := [],
    versions := [sampleVersion], currentVersionIndex := 0,
    isLoading := false, isAsciiLoading := false, error := none, isCollapsed := false }

theorem c8_witness :
    switchVersionIdea 0 5 sampleIdea = sampleIdea ∧
    switchVersionIdea 0 0 sampleIdea =
      { sampleIdea with
        currentVersionIndex := 0,
        text := "alpha", asciiArt := some "art", bridgeText := none, terms := [] } := by
  constructor
  · exact (c8_handleSwitchVersion.2.1) 0 5 sampleIdea (Or.inr (Or.inr (by decide)))
  · have h := (c8_handleSwitchVersion.2.2.1) 0 0 sampleIdea rfl (by decide) (by decide)
    simpa [sampleIdea, sampleVersion] using h

/-- Suggestion-edge id string `sugg-${id}-${idx}`. -/
def suggId (id idx : ℕ) : String :=
  "sugg-" ++ toString id ++ "-" ++ toString idx

/-- Materialization of suggestion edges: stacked vertically, vertically
centered on the node's rectangle, offset 100 world units to its right
(the suggestion-building block of `generateContentForIdea`). -/
def mkSuggestions (id : ℕ) (rect : Rect) (paths : List String) : List Suggestion :=
  let suggHeight : ℚ := 32
  let suggGap : ℚ := 12
  let totalHeight : ℚ := suggHeight * 3 + suggGap * 2
  let startY : ℚ := rect.y + rect.height / 2 - totalHeight / 2
  paths.mapIdx fun idx text =>
    { id := suggId id idx, sourceId := id, text := text,
      x := rect.x + rect.width + 100,
      y := startY + (idx : ℚ) * (suggHeight + suggGap),
      width := 0, height := suggHeight }

/-- The engine state shared by all handlers: the node list, the single
active suggestion set, the active node id and the session counters. -/
structure EngineState where
  ideas : List Idea
  activeSuggestions : List Suggestion
  activeIdeaId : Option ℕ
  totalCharsGenerated : ℕ
  sessionStartTime : Option ℤ
  showInitialInput : Bool
deriving DecidableEq, Repr

/-- The per-idea updater of stage entry: set both loading flags and clear
the error for the matching id. -/
def startLoadingIdea (id : ℕ) (i : Idea) : Idea :=
  if i.id = id then { i with isLoading := true, isAsciiLoading := true, error := none }
  else i

/-- Stage entry of `generateContentForIdea`: mark the node loading and
clear the active suggestion set. -/
def stageStart (id : ℕ) (s : EngineState) : EngineState :=
  { s with ideas := s.ideas.map (startLoadingIdea id), activeSuggestions := [] }

/-- Main-content success: add the reply length to the session character
counter and append the new version to the matching node. -/
def mainContentSuccessStep (id : ℕ) (data : GeminiMainContentResponse)
    (s : EngineState) : EngineState :=
  { s with
    totalCharsGenerated := s.totalCharsGenerated + data.text.length,
    ideas := s.ideas.map (appendMainIdea id data) }

/-- Suggestions stage: when any paths were returned, replace the entire
active suggestion set with edges for this node; otherwise do nothing. -/
def suggestionsStep (id : ℕ) (rect : Rect) (paths : List String)
    (s : EngineState) : EngineState :=
  if paths.length > 0 then { s with activeSuggestions := mkSuggestions id rect paths }
  else s

/-- Art stage: attach the art string to the matching node. -/
def artStep (id : ℕ) (ascii : String) (s : EngineState) : EngineState :=
  { s with ideas := s.ideas.map (attachArtIdea id ascii) }

/-- The `catch` branch: record the message (JS `msg || 'An error occurred.'`)
on the matching node. -/
def errorStep (id : ℕ) (msg : String) (s : EngineState) : EngineState :=
  { s with
    ideas := s.ideas.map (errorIdea id (if msg = "" then "An error occurred." else msg)) }

/-- Outcome of a raw provider call: a parsed value or a thrown error. -/
inductive ProviderResult (α : Type) where
  | ok (value : α)
  | err (message : String)
deriving DecidableEq, Repr

/-- `getSuggestions` from the service layer: on success at most the first
3 items of the reply; a failure is caught internally and replaced by a
fixed fallback list of three strings — the wrapper never throws. -/
def getSuggestions (r : ProviderResult (List String)) : List String :=
  match r with
  | .ok suggestions => suggestions.take 3
  | .err _ =>
    ["Explore the implications...", "Trace the origins...", "Uncover the hidden patterns..."]

/-- `getQuadrantAsciiArt` from the service layer: trimmed reply text with
fallback strings for a missing/blank reply or a caught failure — the
wrapper never throws. -/
def getQuadrantAsciiArt (r : ProviderResult (Option String)) : String :=
  match r with
  | .ok t =>
    match t with
    | some st => if st.trim = "" then "(Schematic Unavailable)" else st.trim
    | none => "(Schematic Unavailable)"
  | .err _ => "(Diagram Calibration Error)"

/-- The async chain of `generateContentForIdea` as a state transformer,
parametrized by the three raw provider outcomes: stage entry, then main
content (whose failure reaches the `catch`), then suggestions and art
(whose wrappers never throw). -/
def generateContentForIdea (id : ℕ) (rect : Rect)
    (mainR : ProviderResult GeminiMainContentResponse)
    (sugR : ProviderResult (List String))
    (artR : ProviderResult (Option String))
    (s : EngineState) : EngineState :=
  let s1 := stageStart id s
  match mainR with
  | .err m => errorStep id m s1
  | .ok data =>
    let s2 := mainContentSuccessStep id data s1
    let s3 := suggestionsStep id rect (getSuggestions sugR) s2
    artStep id (getQuadrantAsciiArt artR) s3

/-- `handleRemoveIdea` from the source: drop the node, reset the session
counters when it was the last one, clear the active id if it pointed at
the removed node, and prune its suggestion edges. -/
def handleRemoveIdea (idToRemove : ℕ) (s : EngineState) : EngineState :=
  let remaining := s.ideas.filter fun idea => decide (idea.id ≠ idToRemove)
  let s' :=
    if remaining.isEmpty then
      { s with ideas := remaining, showInitialInput := true,
               sessionStartTime := none, totalCharsGenerated := 0 }
    else { s with ideas := remaining }
  let s'' :=
    if s'.activeIdeaId = some idToRemove then { s' with activeIdeaId := none } else s'
  { s'' with
    activeSuggestions := s''.activeSuggestions.filter fun su => decide (su.sourceId ≠ idToRemove) }

theorem forall₂_map_self {α : Type} (P : α → α → Prop) (f : α → α)
    (h : ∀ a, P a (f a)) (l : List α) : List.Forall₂ P l (l.map f) := by
  induction l with
  | nil => simp
  | cons b t ih => exact List.Forall₂.cons (h b) ih

theorem suggestionsStep_ideas (id : ℕ) (rect : Rect) (paths : List String)
    (s : EngineState) : (suggestionsStep id rect paths s).ideas = s.ideas := by
  unfold suggestionsStep
  split <;> rfl

theorem appendMainIdea_len (id : ℕ) (data : GeminiMainContentResponse) (i : Idea) :
    i.versions.length ≤ (appendMainIdea id data i).versions.length := by
  unfold appendMainIdea
  split <;> simp

theorem attachArtIdea_len (id : ℕ) (ascii : String) (i : Idea) :
    (attachArtIdea id ascii i).versions.length = i.versions.length := by
  unfold attachArtIdea
  split
  · split
    · simp [listSetInt]
      split <;> simp
    · rfl
  · rfl

theorem switchVersionIdea_len (id : ℕ) (index : ℤ) (i : Idea) :
    (switchVersionIdea id index i).versions.length = i.versions.length := by
  unfold switchVersionIdea
  split
  · split <;> rfl
  · rfl

/-- Claim C2: `versions.length` is non-decreasing under version append,
version switch, art attachment and an entire generation run (the
regeneration path runs the same chain); immediately after a version is
appended the node's `currentVersionIndex` equals `versions.length - 1` and
the live `text`, `bridgeText` and `terms` equal the appended version's
fields. -/
theorem c2_version_monotonicity :
    (∀ (id : ℕ) (data : GeminiMainContentResponse) (i : Idea),
        i.versions.length ≤ (appendMainIdea id data i).versions.length) ∧
    (∀ (id : ℕ) (ascii : String) (i : Idea),
        (attachArtIdea id ascii i).versions.length = i.versions.length) ∧
    (∀ (id : ℕ) (index : ℤ) (i : Idea),
        (switchVersionIdea id index i).versions.length = i.versions.length) ∧
    (∀ (id : ℕ) (rect : Rect) (mainR : ProviderResult GeminiMainContentResponse)
        (sugR : ProviderResult (List String)) (artR : ProviderResult (Option String))
        (s : EngineState),
        List.Forall₂ (fun a b => a.versions.length ≤ b.versions.length)
          s.ideas (generateContentForIdea id rect mainR sugR artR s).ideas) ∧
    (∀ (id : ℕ) (data : GeminiMainContentResponse) (i : Idea), i.id = id →
        (appendMainIdea id data i).currentVersionIndex =
          ((appendMainIdea id data i).versions.length : ℤ) - 1 ∧
        ∃ v, (appendMainIdea id data i).versions.getLast? = some v ∧
          (appendMainIdea id data i).text = v.text ∧
          (appendMainIdea id data i).bridgeText = v.bridgeText ∧
          some (appendMainIdea id data i).terms = v.terms) := by
  refine ⟨appendMainIdea_len, attachArtIdea_len, switchVersionIdea_len, ?_, ?_⟩
  · intro id rect mainR sugR artR s
    cases mainR with
    | err m =>
      show List.Forall₂ _ s.ideas
        ((s.ideas.map (startLoadingIdea id)).map
          (errorIdea id (if m = "" then "An error occurred." else m)))
      rw [List.map_map]
      refine forall₂_map_self _ _ ?_ _
      intro a
      simp only [Function.comp_apply]
      have h1 : (startLoadingIdea id a).versions.length = a.versions.length := by
        unfold startLoadingIdea; split <;> rfl
      have h2 : ∀ j : Idea,
          (errorIdea id (if m = "" then "An error occurred." else m) j).versions.length
            = j.versions.length := by
        intro j; unfold errorIdea; split <;> rfl
      rw [h2, h1]
    | ok data =>
      show List.Forall₂ _ s.ideas
        (artStep id (getQuadrantAsciiArt artR)
          (suggestionsStep id rect (getSuggestions sugR)
            (mainContentSuccessStep id data (stageStart id s)))).ideas
      rw [artStep, suggestionsStep_ideas]
      show List.Forall₂ _ s.ideas
        ((((s.ideas.map (startLoadingIdea id)).map (appendMainIdea id data)).map
          (attachArtIdea id (getQuadrantAsciiArt artR))))
      rw [List.map_map, List.map_map]
      refine forall₂_map_self _ _ ?_ _
      intro a
      simp only [Function.comp_apply]
      have h1 : (startLoadingIdea id a).versions.length = a.versions.length := by
        unfold startLoadingIdea; split <;> rfl
      calc a.versions.length = (startLoadingIdea id a).versions.length := h1.symm
        _ ≤ (appendMainIdea id data (startLoadingIdea id a)).versions.length :=
            appendMainIdea_len _ _ _
        _ = _ := (attachArtIdea_len _ _ _).symm
  · intro id data i hid
    unfold appendMainIdea
    rw [if_pos hid]
    refine ⟨by simp, ?_⟩
    exact ⟨_, List.getLast?_concat _, rfl, rfl, rfl⟩

/-- A two-version scenario: the node starts with one version selected. -/
def c3Version0 : IdeaVersion :=
  { text := "v0", asciiArt := none, bridgeText := none, terms := some [] }

/-- The node of the C3 scenario before regeneration. -/
def c3Idea : Idea :=
  { id := 0, x := 0, y := 0, width := 300, height := 200,
    text := "v0", asciiArt := none, bridgeText := none, terms := [],
    versions := [c3Version0], currentVersionIndex := 0,
    isLoading := false, isAsciiLoading := false, error := none, isCollapsed := false }

/-- The main-content reply of the C3 scenario. -/
def c3Data : GeminiMainContentResponse := { text := "v1", bridge := none, terms := [] }

/-- The node list after appending version v1 (index 1, now current). -/
def c3AfterAppend : List Idea := [c3Idea].map (appendMainIdea 0 c3Data)

/-- The node list after the user switches back to version 0 while the art
request is still in flight. -/
def c3AfterSwitch : List Idea := handleSwitchVersion 0 0 c3AfterAppend

/-- The node list after the late art reply is attached. -/
def c3AfterArt : List Idea := c3AfterSwitch.map (attachArtIdea 0 "ART")

/-- Counterexample to claim C3: append version `v1` (index 1), switch the
node back to version 0 while art is loading, then attach the art. The
claim says the art lands on the version appended by the main-content stage
(index 1) and that the switched-to version's stored fields are untouched;
the code instead reads `currentVersionIndex` at attach time, so version 0
— a version other than the appended one — receives the art and version 1
stays without it. -/
theorem c3_counterexample :
    ((c3AfterSwitch.head?.map Idea.currentVersionIndex) = some 0) ∧
    ((c3AfterArt.head?.bind fun i => listGetInt i.versions 0).map IdeaVersion.asciiArt
        = some (some "ART")) ∧
    ((c3AfterArt.head?.bind fun i => listGetInt i.versions 1).map IdeaVersion.asciiArt
        = some none) := by
  refine ⟨?_, ?_, ?_⟩ <;> rfl

/-- Claim C3 (amended): on art success the string is attached to the
node's live projection and to the version at the node's
`currentVersionIndex` **at attach time** when that index is in range
(other indices are untouched, and an out-of-range index leaves `versions`
unchanged); if the user switched versions while art was loading, the art
is stored on the currently selected version, not on the one appended by
the preceding main-content stage. -/
theorem c3_attachArt_amended (id : ℕ) (ascii : String) (i : Idea) (hid : i.id = id) :
    (attachArtIdea id ascii i).asciiArt = some ascii ∧
    (attachArtIdea id ascii i).isAsciiLoading = false ∧
    (∀ hlt : i.currentVersionIndex.toNat < i.versions.length, 0 ≤ i.currentVersionIndex →
      (attachArtIdea id ascii i).versions =
        i.versions.set i.currentVersionIndex.toNat
          { i.versions.get ⟨i.currentVersionIndex.toNat, hlt⟩ with asciiArt := some ascii }) ∧
    ((i.currentVersionIndex < 0 ∨ (i.versions.length : ℤ) ≤ i.currentVersionIndex) →
      (attachArtIdea id ascii i).versions = i.versions) ∧
    (∀ j : ℕ, j ≠ i.currentVersionIndex.toNat →
      (attachArtIdea id ascii i).versions.get? j = i.versions.get? j) := by
  unfold attachArtIdea
  rw [if_pos hid]
  refine ⟨rfl, rfl, ?_, ?_, ?_⟩
  · intro hlt h0
    have hget : listGetInt i.versions i.currentVersionIndex
        = some (i.versions.get ⟨i.currentVersionIndex.toNat, hlt⟩) := by
      unfold listGetInt
      rw [if_pos h0, List.get?_eq_get hlt]
    simp only [hget, listSetInt, if_pos h0]
  · intro h
    have hget : listGetInt i.versions i.currentVersionIndex = none := by
      unfold listGetInt
      rcases h with h | h
      · rw [if_neg (by omega)]
      · split
        · exact List.get?_eq_none.mpr (by omega)
        · rfl
    simp only [hget]
  · intro j hj
    cases hget : listGetInt i.versions i.currentVersionIndex with
    | none => simp only [hget]
    | some v =>
      simp only [hget, listSetInt]
      split
      · exact List.get?_set_ne _ _ (Ne.symm hj)
      · rfl

/-- Concrete instantiation of the amended C3 theorem on the scenario node. -/
theorem c3_witness :
    (attachArtIdea 0 "ART" c3Idea).asciiArt = some "ART" ∧
    (attachArtIdea 0 "ART" c3Idea).isAsciiLoading = false := by
  have h := c3_attachArt_amended 0 "ART" c3Idea rfl
  exact ⟨h.1, h.2.1⟩

theorem map_eq_self_of_id {α : Type} (f : α → α) (l : List α)
    (h : ∀ a ∈ l, f a = a) : l.map f = l := by
  conv_rhs => rw [← List.map_id l]
  exact List.map_congr_left h

theorem startLoadingIdea_skip (id : ℕ) (i : Idea) (h : i.id ≠ id) :
    startLoadingIdea id i = i := by
  unfold startLoadingIdea
  rw [if_neg h]

theorem appendMainIdea_skip (id : ℕ) (data : GeminiMainContentResponse) (i : Idea)
    (h : i.id ≠ id) : appendMainIdea id data i = i := by
  unfold appendMainIdea
  rw [if_neg h]

theorem attachArtIdea_skip (id : ℕ) (ascii : String) (i : Idea) (h : i.id ≠ id) :
    attachArtIdea id ascii i = i := by
  unfold attachArtIdea
  rw [if_neg h]

theorem errorIdea_skip (id : ℕ) (msg : String) (i : Idea) (h : i.id ≠ id) :
    errorIdea id msg i = i := by
  unfold errorIdea
  rw [if_neg h]

/-- The node of the C4 scenario: the only node, still empty and loading. -/
def c4Idea : Idea :=
  { id := 7, x := 0, y := 0, width := 300, height := 200,
    text := "", asciiArt := none, bridgeText := none, terms := [],
    versions := [], currentVersionIndex := -1,
    isLoading := true, isAsciiLoading := true, error := none, isCollapsed := false }

/-- The engine state of the C4 scenario just before the node is removed. -/
def c4State : EngineState :=
  { ideas := [c4Idea], activeSuggestions := [], activeIdeaId := some 7,
    totalCharsGenerated := 0, sessionStartTime := some 0, showInitialInput := false }

/-- The rectangle the in-flight generation of node 7 was started with. -/
def c4Rect : Rect := { x := 0, y := 0, width := 300, height := 200 }

/-- The state after node 7 is removed while its generation is in flight. -/
def c4Removed : EngineState := handleRemoveIdea 7 c4State

/-- The state after the stale continuation of node 7's generation chain
completes (main content "hello", three suggestions, art). -/
def c4Stale : EngineState :=
  generateContentForIdea 7 c4Rect
    (.ok { text := "hello", bridge := none, terms := [] })
    (.ok ["a", "b", "c"]) (.ok (some "art")) c4Removed

/-- Counterexample to claim C4: node 7 is removed while its generation is
in flight (the removal empties the store and resets the session counter to
0 and the suggestion set to `[]`); the stale continuation then runs, and
although the id-guarded node updates drop silently, it still adds the
reply length 5 to the session character counter and installs three
suggestion edges for the removed node — engine state observable to other
nodes is changed, contradicting the claim. -/
theorem c4_counterexample :
    c4Removed.ideas = [] ∧
    c4Removed.totalCharsGenerated = 0 ∧
    c4Removed.activeSuggestions = [] ∧
    c4Stale.ideas = [] ∧
    c4Stale.totalCharsGenerated = 5 ∧
    c4Stale.activeSuggestions.length = 3 ∧
    (c4Stale.activeSuggestions.map Suggestion.sourceId) = [7, 7, 7] := by
  refine ⟨rfl, rfl, rfl, rfl, rfl, rfl, rfl⟩

/-- Claim C4 (amended): when the node no longer exists, every id-guarded
`setIdeas` mutation of the stale continuation leaves the node list
unchanged (both on the success and on the error path); but the stale
continuation still unconditionally adds the main reply's length to the
session character counter and, when the suggestions wrapper yields any
paths, replaces the entire active suggestion set with edges for the
removed node. -/
theorem c4_stale_amended (id : ℕ) (rect : Rect) (data : GeminiMainContentResponse)
    (sugR : ProviderResult (List String)) (artR : ProviderResult (Option String))
    (s : EngineState) (h : ∀ i ∈ s.ideas, i.id ≠ id) :
    (generateContentForIdea id rect (.ok data) sugR artR s).ideas = s.ideas ∧
    (∀ m, (generateContentForIdea id rect (.err m) sugR artR s).ideas = s.ideas) ∧
    (generateContentForIdea id rect (.ok data) sugR artR s).totalCharsGenerated
      = s.totalCharsGenerated + data.text.length ∧
    (getSuggestions sugR ≠ [] →
      (generateContentForIdea id rect (.ok data) sugR artR s).activeSuggestions
        = mkSuggestions id rect (getSuggestions sugR)) := by
  have hstage : (stageStart id s).ideas = s.ideas :=
    map_eq_self_of_id _ _ fun a ha => startLoadingIdea_skip id a (h a ha)
  have hok : (generateContentForIdea id rect (.ok data) sugR artR s).ideas = s.ideas := by
    show (artStep id (getQuadrantAsciiArt artR)
      (suggestionsStep id rect (getSuggestions sugR)
        (mainContentSuccessStep id data (stageStart id s)))).ideas = s.ideas
    rw [artStep, suggestionsStep_ideas]
    show ((mainContentSuccessStep id data (stageStart id s)).ideas.map
      (attachArtIdea id (getQuadrantAsciiArt artR))) = s.ideas
    rw [mainContentSuccessStep, hstage]
    show ((s.ideas.map (appendMainIdea id data)).map
      (attachArtIdea id (getQuadrantAsciiArt artR))) = s.ideas
    rw [map_eq_self_of_id _ _ fun a ha => appendMainIdea_skip id data a (h a ha)]
    exact map_eq_self_of_id _ _ fun a ha => attachArtIdea_skip id _ a (h a ha)
  refine ⟨hok, ?_, ?_, ?_⟩
  · intro m
    show (errorStep id m (stageStart id s)).ideas = s.ideas
    rw [errorStep, hstage]
    exact map_eq_self_of_id _ _ fun a ha => errorIdea_skip id _ a (h a ha)
  · show (artStep id (getQuadrantAsciiArt artR)
      (suggestionsStep id rect (getSuggestions sugR)
        (mainContentSuccessStep id data (stageStart id s)))).totalCharsGenerated = _
    rw [artStep]
    show (suggestionsStep id rect (getSuggestions sugR)
      (mainContentSuccessStep id data (stageStart id s))).totalCharsGenerated = _
    unfold suggestionsStep
    split <;> rfl
  · intro hne
    show (artStep id (getQuadrantAsciiArt artR)
      (suggestionsStep id rect (getSuggestions sugR)
        (mainContentSuccessStep id data (stageStart id s)))).activeSuggestions = _
    rw [artStep]
    show (suggestionsStep id rect (getSuggestions sugR)
      (mainContentSuccessStep id data (stageStart id s))).activeSuggestions = _
    unfold suggestionsStep
    rw [if_pos (by simpa [List.length_pos] using hne)]

/-- Concrete instantiation of the amended C4 theorem on the removal
scenario: the stale continuation leaves the (empty) node list unchanged,
while the counter and suggestion set move. -/
theorem c4_witness :
    (generateContentForIdea 7 c4Rect
        (.ok { text := "hello", bridge := none, terms := [] })
        (.ok ["a", "b", "c"]) (.ok (some "art")) c4Removed).ideas = c4Removed.ideas ∧
    (generateContentForIdea 7 c4Rect
        (.ok { text := "hello", bridge := none, terms := [] })
        (.ok ["a", "b", "c"]) (.ok (some "art")) c4Removed).totalCharsGenerated
      = c4Removed.totalCharsGenerated + 5 := by
  have h := c4_stale_amended 7 c4Rect { text := "hello", bridge := none, terms := [] }
    (.ok ["a", "b", "c"]) (.ok (some "art")) c4Removed (by decide)
  exact ⟨h.1, h.2.2.1⟩

/-- Viewport state: screen-space pan offset and zoom factor. -/
structure Viewport where
  panOffset : Point
  zoom : ℚ
deriving DecidableEq, Repr

/-- `screenToWorld` from the grid component: client coordinates minus the
container's bounding-rect origin and the pan offset, divided by the zoom
(the engine's container fills the window, so its origin is `(0, 0)`). -/
def screenToWorld (containerLeft containerTop : ℚ) (panOffset : Point) (zoom : ℚ)
    (clientX clientY : ℚ) : Point :=
  { x := (clientX - containerLeft - panOffset.x) / zoom,
    y := (clientY - containerTop - panOffset.y) / zoom }

/-- `handleZoom` from the source: clamp the new zoom to `[0.3, 2.0]`,
return the state unchanged when the clamped value equals the current zoom,
otherwise apply the compensating pan update about the center point. -/
def handleZoom (delta : ℚ) (center : Point) (v : Viewport) : Viewport :=
  let nextZoom := min (max (v.zoom + delta) 0.3) 2.0
  if nextZoom = v.zoom then v
  else
    { panOffset :=
        { x := center.x - (center.x - v.panOffset.x) * (nextZoom / v.zoom),
          y := center.y - (center.y - v.panOffset.y) * (nextZoom / v.zoom) },
      zoom := nextZoom }

/-- Claim C5: the resulting zoom is clamped to `[0.3, 2.0]`; when the
clamped value equals the current zoom neither zoom nor pan changes; and
when the zoom does change the new pan offset is
`c - (c - pan) * (zoom' / zoom)`, which leaves the world point under the
screen center `c` invariant (`screenToWorld` of `c`, with the engine's
full-window container origin, agrees before and after). -/
theorem c5_handleZoom (delta : ℚ) (center : Point) (v : Viewport) (hz : 0 < v.zoom) :
    ((3 / 10 : ℚ) ≤ (handleZoom delta center v).zoom ∧ (handleZoom delta center v).zoom ≤ 2) ∧
    (min (max (v.zoom + delta) 0.3) 2.0 = v.zoom → handleZoom delta center v = v) ∧
    ((handleZoom delta center v).zoom ≠ v.zoom →
      (handleZoom delta center v).panOffset.x
          = center.x - (center.x - v.panOffset.x) * ((handleZoom delta center v).zoom / v.zoom) ∧
      (handleZoom delta center v).panOffset.y
          = center.y - (center.y - v.panOffset.y) * ((handleZoom delta center v).zoom / v.zoom) ∧
      screenToWorld 0 0 (handleZoom delta center v).panOffset (handleZoom delta center v).zoom
          center.x center.y
        = screenToWorld 0 0 v.panOffset v.zoom center.x center.y) := by
  have hval : handleZoom delta center v =
      if min (max (v.zoom + delta) 0.3) 2.0 = v.zoom then v
      else
        { panOffset :=
            { x := center.x - (center.x - v.panOffset.x)
                * (min (max (v.zoom + delta) 0.3) 2.0 / v.zoom),
              y := center.y - (center.y - v.panOffset.y)
                * (min (max (v.zoom + delta) 0.3) 2.0 / v.zoom) },
          zoom := min (max (v.zoom + delta) 0.3) 2.0 } := rfl
  have hclamp : (3 / 10 : ℚ) ≤ min (max (v.zoom + delta) 0.3) 2.0 ∧
      min (max (v.zoom + delta) 0.3) 2.0 ≤ 2 := by
    have h03 : (3 / 10 : ℚ) ≤ max (v.zoom + delta) 0.3 := by
      have : (3 / 10 : ℚ) = 0.3 := by norm_num
      rw [this]
      exact le_max_right _ _
    constructor
    · exact le_min h03 (by norm_num : (3 / 10 : ℚ) ≤ 2.0)
    · exact le_trans (min_le_right _ _) (by norm_num : (2.0 : ℚ) ≤ 2)
  by_cases h : min (max (v.zoom + delta) 0.3) 2.0 = v.zoom
  · rw [hval, if_pos h]
    refine ⟨by rw [← h]; exact hclamp, fun _ => rfl, fun hne => absurd rfl hne⟩
  · rw [hval, if_neg h]
    refine ⟨hclamp, fun habs => absurd habs h, fun _ => ⟨rfl, rfl, ?_⟩⟩
    have hz' : (0 : ℚ) < min (max (v.zoom + delta) 0.3) 2.0 :=
      lt_of_lt_of_le (by norm_num) hclamp.1
    unfold screenToWorld
    have hzne : v.zoom ≠ 0 := ne_of_gt hz
    have hzne' : min (max (v.zoom + delta) 0.3) 2.0 ≠ 0 := ne_of_gt hz'
    simp only [Point.mk.injEq]
    constructor
    · field_simp
      ring
    · field_simp
      ring

/-- Concrete instantiation of the C5 theorem: zooming in by 0.5 about the
screen point (100, 50) from zoom 1 yields zoom 1.5 with the compensating
pan, preserving the world point under the cursor. -/
theorem c5_witness :
    ((3 / 10 : ℚ) ≤ (handleZoom (1 / 2) { x := 100, y := 50 }
        { panOffset := { x := 0, y := 0 }, zoom := 1 }).zoom) ∧
    screenToWorld 0 0
        (handleZoom (1 / 2) { x := 100, y := 50 }
          { panOffset := { x := 0, y := 0 }, zoom := 1 }).panOffset
        (handleZoom (1 / 2) { x := 100, y := 50 }
          { panOffset := { x := 0, y := 0 }, zoom := 1 }).zoom 100 50
      = screenToWorld 0 0 { x := 0, y := 0 } 1 100 50 := by
  have h := c5_handleZoom (1 / 2) { x := 100, y := 50 }
    { panOffset := { x := 0, y := 0 }, zoom := 1 } (by norm_num)
  have hzoom : (handleZoom (1 / 2) { x := 100, y := 50 }
      { panOffset := { x := 0, y := 0 }, zoom := 1 }).zoom = 3 / 2 := by
    norm_num [handleZoom, min_def, max_def]
  exact ⟨h.1.1, (h.2.2 (by rw [hzoom]; norm_num)).2.2⟩

/-- The toolbar-affordance rectangle computed by `handleBringToFront`:
a band `TOOLBAR_HEIGHT + 10` tall sitting just above the active node,
widened by 20 on each side. -/
def toolbarRectOf (activeNode : Idea) : Rect :=
  { x := activeNode.x - 20,
    y := activeNode.y - TOOLBAR_HEIGHT - 10,
    width := activeNode.width + 40,
    height := TOOLBAR_HEIGHT + 10 }

/-- The geometric overlap test of `handleBringToFront` between a node and
the toolbar rectangle (strict separation on some axis means no overlap). -/
def overlapsToolbar (node : Idea) (tr : Rect) : Bool :=
  !(decide (node.x + node.width < tr.x) ||
    decide (node.x > tr.x + tr.width) ||
    decide (node.y + node.height < tr.y) ||
    decide (node.y > tr.y + tr.height))

/-- The per-node nudge of `handleBringToFront`: an overlapping non-active
node is pushed along Y (to 10 units above the toolbar's top, via
`pushY = (tr.y - (node.y + node.height)) - 10`) when the vertical center
offset dominates or the node's bottom is strictly below the toolbar's top;
otherwise along X, to the toolbar's side chosen by the sign of the
horizontal center offset. -/
def nudgeForToolbar (id : ℕ) (tr : Rect) (node : Idea) : Idea :=
  if node.id = id then node
  else if overlapsToolbar node tr then
    if |(node.y + node.height / 2) - (tr.y + tr.height / 2)|
        > |(node.x + node.width / 2) - (tr.x + tr.width / 2)| ∨
        node.y + node.height > tr.y then
      { node with y := node.y + ((tr.y - (node.y + node.height)) - 10) }
    else
      { node with x := node.x +
          (if (node.x + node.width / 2) - (tr.x + tr.width / 2) > 0
           then (tr.x + tr.width - node.x) + 15
           else (tr.x - (node.x + node.width)) - 15) }
  else node

/-- `handleBringToFront` from the source, as the `setIdeas` updater (the
handler also marks the id as active; that flag is engine state outside the
node list). -/
def handleBringToFront (id : ℕ) (ideas : List Idea) : List Idea :=
  match ideas.find? (fun n => decide (n.id = id)) with
  | none => ideas
  | some activeNode => ideas.map (nudgeForToolbar id (toolbarRectOf activeNode))

/-- The active node of the C6 scenario. -/
def c6Active : Idea :=
  { id := 0, x := 0, y := 0, width := 300, height := 200,
    text := "a", asciiArt := none, bridgeText := none, terms := [],
    versions := [], currentVersionIndex := -1,
    isLoading := false, isAsciiLoading := false, error := none, isCollapsed := false }

/-- A node overlapping the toolbar band of `c6Active` whose horizontal
center offset (150) strictly dominates its vertical one (0). -/
def c6Other : Idea :=
  { id := 1, x := 250, y := -60, width := 100, height := 50,
    text := "b", asciiArt := none, bridgeText := none, terms := [],
    versions := [], currentVersionIndex := -1,
    isLoading := false, isAsciiLoading := false, error := none, isCollapsed := false }

/-- Counterexample to claim C6: node 1 overlaps the toolbar rectangle of
node 0 with |horizontal center offset| = 150 strictly larger than the
|vertical center offset| = 0, so the claim demands a nudge along the X
axis (Y unchanged); the code's extra `node.y + node.height > toolbar.y`
disjunct instead pushes the node along Y (upward, from y = -60 to
y = -130) and leaves X unchanged. -/
theorem c6_counterexample :
    overlapsToolbar c6Other (toolbarRectOf c6Active) = true ∧
    |(c6Other.y + c6Other.height / 2)
        - ((toolbarRectOf c6Active).y + (toolbarRectOf c6Active).height / 2)|
      < |(c6Other.x + c6Other.width / 2)
        - ((toolbarRectOf c6Active).x + (toolbarRectOf c6Active).width / 2)| ∧
    (handleBringToFront 0 [c6Active, c6Other]).map (fun n => (n.x, n.y))
      = [(0, 0), (250, -130)] ∧
    c6Other.x = 250 ∧ c6Other.y = -60 := by
  have hfind : List.find? (fun n => decide (n.id = 0)) [c6Active, c6Other] = some c6Active :=
    rfl
  have hov : overlapsToolbar c6Other (toolbarRectOf c6Active) = true := by
    simp only [overlapsToolbar, toolbarRectOf, c6Other, c6Active, TOOLBAR_HEIGHT]
    norm_num
  have hnudge0 : nudgeForToolbar 0 (toolbarRectOf c6Active) c6Active = c6Active := by
    unfold nudgeForToolbar
    rw [if_pos (show c6Active.id = 0 from rfl)]
  have hnudge1 : nudgeForToolbar 0 (toolbarRectOf c6Active) c6Other
      = { c6Other with y := -130 } := by
    unfold nudgeForToolbar
    rw [if_neg (by simp [c6Other]), if_pos hov, if_pos]
    · rw [Idea.mk.injEq]
      norm_num [c6Other, c6Active, toolbarRectOf, TOOLBAR_HEIGHT]
    · right
      show c6Other.y + c6Other.height > (toolbarRectOf c6Active).y
      norm_num [c6Other, c6Active, toolbarRectOf, TOOLBAR_HEIGHT]
  refine ⟨hov, ?_, ?_, rfl, rfl⟩
  · norm_num [c6Other, c6Active, toolbarRectOf, TOOLBAR_HEIGHT]
  · unfold handleBringToFront
    rw [hfind]
    simp only [List.map_cons, List.map_nil, hnudge0, hnudge1]
    norm_num [c6Other, c6Active]

/-- What `handleBringToFront` actually does to one non-active node `n`
given the toolbar rectangle of the active node, stated extensionally:
identity for the active node and for non-overlapping nodes; a Y push
(always to 10 units above the toolbar's top, regardless of the vertical
offset's sign) when the vertical center offset dominates or the node's
bottom edge is strictly below the toolbar's top; otherwise an X push to
the side chosen by the sign of the horizontal center offset. -/
def ToolbarNudgeSpec (id : ℕ) (tr : Rect) (n m : Idea) : Prop :=
  (n.id = id → m = n) ∧
  (overlapsToolbar n tr = false → m = n) ∧
  (n.id ≠ id → overlapsToolbar n tr = true →
    ((|(n.y + n.height / 2) - (tr.y + tr.height / 2)|
        > |(n.x + n.width / 2) - (tr.x + tr.width / 2)| ∨
      n.y + n.height > tr.y) →
        m = { n with y := tr.y - n.height - 10 }) ∧
    (¬(|(n.y + n.height / 2) - (tr.y + tr.height / 2)|
        > |(n.x + n.width / 2) - (tr.x + tr.width / 2)| ∨
      n.y + n.height > tr.y) →
        ((n.x + n.width / 2) - (tr.x + tr.width / 2) > 0 →
          m = { n with x := tr.x + tr.width + 15 }) ∧
        (¬((n.x + n.width / 2) - (tr.x + tr.width / 2) > 0) →
          m = { n with x := tr.x - n.width - 15 })))

/-- Claim C6 (amended): for an existing node id, every node is related to
its updated copy by `ToolbarNudgeSpec`: nodes overlapping the toolbar
rectangle are pushed along Y (always upward to just above the toolbar)
whenever the vertical center offset dominates **or the node's bottom edge
is strictly below the toolbar's top**, and along X by the sign of the
horizontal center offset only otherwise; non-overlapping nodes and the
active node keep their positions. -/
theorem c6_bringToFront_amended (id : ℕ) (ideas : List Idea) (activeNode : Idea)
    (hfind : ideas.find? (fun n => decide (n.id = id)) = some activeNode) :
    List.Forall₂ (ToolbarNudgeSpec id (toolbarRectOf activeNode))
      ideas (handleBringToFront id ideas) := by
  unfold handleBringToFront
  rw [hfind]
  refine forall₂_map_self _ _ ?_ _
  intro n
  unfold ToolbarNudgeSpec nudgeForToolbar
  by_cases hid : n.id = id
  · rw [if_pos hid]
    exact ⟨fun _ => rfl, fun _ => rfl, fun habs _ => absurd hid habs⟩
  · rw [if_neg hid]
    by_cases hov : overlapsToolbar n (toolbarRectOf activeNode) = true
    · rw [if_pos hov]
      refine ⟨fun habs => absurd habs hid,
        fun habs => absurd (habs ▸ hov) (by simp), ?_⟩
      intro _ _
      set tr := toolbarRectOf activeNode with htr
      by_cases hcase : |(n.y + n.height / 2) - (tr.y + tr.height / 2)|
          > |(n.x + n.width / 2) - (tr.x + tr.width / 2)| ∨
          n.y + n.height > tr.y
      · rw [if_pos hcase]
        refine ⟨fun _ => ?_, fun habs => absurd hcase habs⟩
        rw [Idea.mk.injEq]
        refine ⟨rfl, rfl, by ring, rfl, rfl, rfl, rfl, rfl, rfl, rfl, rfl, rfl, rfl, rfl, rfl⟩
      · rw [if_neg hcase]
        refine ⟨fun habs => absurd habs hcase, fun _ => ⟨?_, ?_⟩⟩
        · intro hdx
          rw [if_pos hdx, Idea.mk.injEq]
          refine ⟨rfl, by ring, rfl, rfl, rfl, rfl, rfl, rfl, rfl, rfl, rfl, rfl, rfl, rfl, rfl⟩
        · intro hdx
          rw [if_neg hdx, Idea.mk.injEq]
          refine ⟨rfl, by ring, rfl, rfl, rfl, rfl, rfl, rfl, rfl, rfl, rfl, rfl, rfl, rfl, rfl⟩
    · rw [if_neg hov]
      refine ⟨fun _ => rfl, fun _ => rfl, fun _ habs => absurd habs hov⟩

/-- Concrete instantiation of the amended C6 theorem on the two-node
scenario. -/
theorem c6_witness :
    List.Forall₂ (ToolbarNudgeSpec 0 (toolbarRectOf c6Active))
      [c6Active, c6Other] (handleBringToFront 0 [c6Active, c6Other]) :=
  c6_bringToFront_amended 0 [c6Active, c6Other] c6Active rfl

/-- The node of the C7 scenario. -/
def c7Idea : Idea :=
  { id := 0, x := 0, y := 0, width := 300, height := 200,
    text := "", asciiArt := none, bridgeText := none, terms := [],
    versions := [], currentVersionIndex := -1,
    isLoading := true, isAsciiLoading := true, error := none, isCollapsed := false }

/-- The engine state of the C7 scenario (empty active suggestion set). -/
def c7State : EngineState :=
  { ideas := [c7Idea], activeSuggestions := [], activeIdeaId := some 0,
    totalCharsGenerated := 0, sessionStartTime := some 0, showInitialInput := false }

/-- The rectangle of node 0. -/
def c7Rect : Rect := { x := 0, y := 0, width := 300, height := 200 }

/-- Counterexample to claim C7: a provider response with a single
suggestion (fewer than 3) still materializes a suggestion set — after the
chain the active suggestion set has one edge, not zero as the claim's
"fewer than 3 items ... yields no suggestion set (the active suggestion
set remains empty)" requires. -/
theorem c7_counterexample :
    getSuggestions (.ok ["only one path"]) = ["only one path"] ∧
    (generateContentForIdea 0 c7Rect
        (.ok { text := "t", bridge := none, terms := [] })
        (.ok ["only one path"]) (.ok none) c7State).activeSuggestions.length = 1 := by
  exact ⟨rfl, rfl⟩

/-- Claim C7 (amended): the suggestions stage yields at most 3 edges
(after any full chain the active set has at most 3); an **empty** response
yields no suggestion set (the set cleared at stage entry stays empty
through the chain); and a response with 1–3 items materializes exactly one
edge per item, replacing the entire active suggestion set with edges that
all belong to the generating node (suggestions of other nodes are
discarded). -/
theorem c7_suggestions_amended :
    (∀ r : ProviderResult (List String), (getSuggestions r).length ≤ 3) ∧
    (∀ (id : ℕ) (rect : Rect) (paths : List String),
        (mkSuggestions id rect paths).length = paths.length) ∧
    (∀ (id : ℕ) (rect : Rect) (paths : List String) (s : EngineState), paths ≠ [] →
        (suggestionsStep id rect paths s).activeSuggestions = mkSuggestions id rect paths) ∧
    (∀ (id : ℕ) (rect : Rect) (paths : List String) (s : EngineState), paths ≠ [] →
        ∀ su ∈ (suggestionsStep id rect paths s).activeSuggestions, su.sourceId = id) ∧
    (∀ (id : ℕ) (rect : Rect) (s : EngineState), suggestionsStep id rect [] s = s) ∧
    (∀ (id : ℕ) (rect : Rect) (data : GeminiMainContentResponse)
        (artR : ProviderResult (Option String)) (s : EngineState),
        (generateContentForIdea id rect (.ok data) (.ok []) artR s).activeSuggestions = []) ∧
    (∀ (id : ℕ) (rect : Rect) (mainR : ProviderResult GeminiMainContentResponse)
        (sugR : ProviderResult (List String)) (artR : ProviderResult (Option String))
        (s : EngineState),
        (generateContentForIdea id rect mainR sugR artR s).activeSuggestions.length ≤ 3) := by
  have hlen : ∀ r : ProviderResult (List String), (getSuggestions r).length ≤ 3 := by
    intro r
    cases r with
    | ok suggestions =>
      show (suggestions.take 3).length ≤ 3
      rw [List.length_take]
      exact min_le_left _ _
    | err _ => exact le_refl 3
  have hmk : ∀ (id : ℕ) (rect : Rect) (paths : List String),
      (mkSuggestions id rect paths).length = paths.length := by
    intro id rect paths
    unfold mkSuggestions
    exact List.length_mapIdx
  have hrepl : ∀ (id : ℕ) (rect : Rect) (paths : List String) (s : EngineState),
      paths ≠ [] →
      (suggestionsStep id rect paths s).activeSuggestions = mkSuggestions id rect paths := by
    intro id rect paths s hne
    unfold suggestionsStep
    rw [if_pos (List.length_pos.mpr hne)]
  refine ⟨hlen, hmk, hrepl, ?_, ?_, ?_, ?_⟩
  · intro id rect paths s hne su hsu
    rw [hrepl id rect paths s hne] at hsu
    unfold mkSuggestions at hsu
    rw [List.mem_mapIdx] at hsu
    obtain ⟨k, hk, heq⟩ := hsu
    rw [← heq]
  · intro id rect s
    unfold suggestionsStep
    rw [if_neg (by simp)]
  · intro id rect data artR s
    show (artStep id (getQuadrantAsciiArt artR)
      (suggestionsStep id rect (getSuggestions (.ok []))
        (mainContentSuccessStep id data (stageStart id s)))).activeSuggestions = []
    rw [artStep]
    show (suggestionsStep id rect []
      (mainContentSuccessStep id data (stageStart id s))).activeSuggestions = []
    unfold suggestionsStep
    rw [if_neg (by simp)]
    rfl
  · intro id rect mainR sugR artR s
    cases mainR with
    | err m =>
      show (errorStep id m (stageStart id s)).activeSuggestions.length ≤ 3
      show ([] : List Suggestion).length ≤ 3
      simp
    | ok data =>
      show (artStep id (getQuadrantAsciiArt artR)
        (suggestionsStep id rect (getSuggestions sugR)
          (mainContentSuccessStep id data (stageStart id s)))).activeSuggestions.length ≤ 3
      rw [artStep]
      show (suggestionsStep id rect (getSuggestions sugR)
        (mainContentSuccessStep id data (stageStart id s))).activeSuggestions.length ≤ 3
      unfold suggestionsStep
      split
      · rw [hmk]
        exact hlen sugR
      · show ([] : List Suggestion).length ≤ 3
        simp

theorem startLoadingIdea_id (id : ℕ) (a : Idea) : (startLoadingIdea id a).id = a.id := by
  unfold startLoadingIdea
  split <;> rfl

theorem appendMainIdea_id (id : ℕ) (data : GeminiMainContentResponse) (a : Idea) :
    (appendMainIdea id data a).id = a.id := by
  unfold appendMainIdea
  split <;> rfl

theorem attachArtIdea_id (id : ℕ) (ascii : String) (a : Idea) :
    (attachArtIdea id ascii a).id = a.id := by
  unfold attachArtIdea
  split <;> rfl

theorem startLoadingIdea_error (id : ℕ) (a : Idea) (h : a.id = id) :
    (startLoadingIdea id a).error = none := by
  unfold startLoadingIdea
  rw [if_pos h]

theorem appendMainIdea_error (id : ℕ) (data : GeminiMainContentResponse) (a : Idea) :
    (appendMainIdea id data a).error = a.error := by
  unfold appendMainIdea
  split <;> rfl

theorem attachArtIdea_error (id : ℕ) (ascii : String) (a : Idea) :
    (attachArtIdea id ascii a).error = a.error := by
  unfold attachArtIdea
  split <;> rfl

theorem attachArtIdea_loading (id : ℕ) (ascii : String) (a : Idea) (h : a.id = id) :
    (attachArtIdea id ascii a).isAsciiLoading = false := by
  unfold attachArtIdea
  rw [if_pos h]

/-- Claim C10: the `getSuggestions` wrapper is total — a provider failure
is replaced by the fixed fallback list of three suggestion strings — so a
failure during the suggestions stage never sets the node's error, never
stops the chain before the art stage (the matching node ends with
`isAsciiLoading = false`), and still produces a non-empty (three-edge)
active suggestion set. -/
theorem c10_getSuggestions_total :
    (∀ m : String, getSuggestions (.err m) =
      ["Explore the implications...", "Trace the origins...",
       "Uncover the hidden patterns..."]) ∧
    (∀ (id : ℕ) (rect : Rect) (data : GeminiMainContentResponse) (m : String)
        (artR : ProviderResult (Option String)) (s : EngineState),
        (generateContentForIdea id rect (.ok data) (.err m) artR s).activeSuggestions
          = mkSuggestions id rect (getSuggestions (.err m)) ∧
        (generateContentForIdea id rect (.ok data) (.err m) artR s).activeSuggestions.length
          = 3 ∧
        (∀ i ∈ (generateContentForIdea id rect (.ok data) (.err m) artR s).ideas,
          i.id = id → i.error = none ∧ i.isAsciiLoading = false)) := by
  refine ⟨fun _ => rfl, ?_⟩
  intro id rect data m artR s
  have hsugg : (generateContentForIdea id rect (.ok data) (.err m) artR s).activeSuggestions
      = mkSuggestions id rect (getSuggestions (.err m)) := by
    show (artStep id (getQuadrantAsciiArt artR)
      (suggestionsStep id rect (getSuggestions (.err m))
        (mainContentSuccessStep id data (stageStart id s)))).activeSuggestions = _
    rw [artStep]
    show (suggestionsStep id rect (getSuggestions (.err m))
      (mainContentSuccessStep id data (stageStart id s))).activeSuggestions = _
    unfold suggestionsStep
    rw [if_pos (show (getSuggestions (ProviderResult.err m)).length > 0 from Nat.succ_pos 2)]
  refine ⟨hsugg, ?_, ?_⟩
  · rw [hsugg]
    unfold mkSuggestions
    rw [List.length_mapIdx]
    rfl
  · intro i hi hid
    have hide : (generateContentForIdea id rect (.ok data) (.err m) artR s).ideas
        = ((s.ideas.map (startLoadingIdea id)).map (appendMainIdea id data)).map
            (attachArtIdea id (getQuadrantAsciiArt artR)) := by
      show (artStep id (getQuadrantAsciiArt artR)
        (suggestionsStep id rect (getSuggestions (.err m))
          (mainContentSuccessStep id data (stageStart id s)))).ideas = _
      rw [artStep, suggestionsStep_ideas]
      rfl
    rw [hide] at hi
    obtain ⟨b2, hb2, heq2⟩ := List.mem_map.mp hi
    obtain ⟨b1, hb1, heq1⟩ := List.mem_map.mp hb2
    obtain ⟨a, ha, heq0⟩ := List.mem_map.mp hb1
    subst heq2
    subst heq1
    subst heq0
    have haid : a.id = id := by
      rw [attachArtIdea_id, appendMainIdea_id, startLoadingIdea_id] at hid
      exact hid
    constructor
    · rw [attachArtIdea_error, appendMainIdea_error, startLoadingIdea_error id a haid]
    · refine attachArtIdea_loading _ _ _ ?_
      rw [appendMainIdea_id, startLoadingIdea_id]
      exact haid

/-- The history derivation of `generateContentForIdea` (also used by the
regeneration path): all nodes other than the generated one with non-empty
(JS-truthy) live text, sorted by ascending id, texts only. -/
def getHistoryFor (id : ℕ) (currentIdeas : List Idea) : List String :=
  ((currentIdeas.filter fun i => decide (i.id ≠ id) && decide (i.text ≠ "")).mergeSort
      fun a b => decide (a.id ≤ b.id)).map Idea.text

/-- The history derivation of the named-concept creation paths (suggestion
click, term click, typed concept): the same computation without the id
filter, applied to the node snapshot captured **before** the new node was
inserted. -/
def getHistoryAll (currentIdeas : List Idea) : List String :=
  ((currentIdeas.filter fun i => decide (i.text ≠ "")).mergeSort
      fun a b => decide (a.id ≤ b.id)).map Idea.text

/-- Claim C9: the prompt history is the texts of exactly the nodes with
non-empty live text other than the generated node, in strictly ascending
id order (when ids are pairwise distinct, as the monotone id counter
guarantees); and the id-free variant used by the named-concept paths
agrees with it whenever every node carrying the new id has empty text — in
particular when the new node is absent from the snapshot or still empty —
so the new node's own still-empty text is never included. -/
theorem c9_history (id : ℕ) (ideas : List Idea) :
    (∃ l : List Idea,
        getHistoryFor id ideas = l.map Idea.text ∧
        l.Perm (ideas.filter fun i => decide (i.id ≠ id) && decide (i.text ≠ "")) ∧
        (∀ i ∈ l, i.id ≠ id ∧ i.text ≠ "" ∧ i ∈ ideas) ∧
        (∀ i ∈ ideas, i.id ≠ id → i.text ≠ "" → i ∈ l) ∧
        ((ideas.map Idea.id).Nodup → l.Pairwise fun a b => a.id < b.id)) ∧
    ((∀ i ∈ ideas, i.id = id → i.text = "") →
      getHistoryAll ideas = getHistoryFor id ideas) := by
  constructor
  · refine ⟨(ideas.filter fun i => decide (i.id ≠ id) && decide (i.text ≠ "")).mergeSort
      (fun a b => decide (a.id ≤ b.id)), by rfl, List.mergeSort_perm _ _, ?_, ?_, ?_⟩
    · intro i hi
      have hmem := (List.mergeSort_perm _ _).mem_iff.mp hi
      rw [List.mem_filter] at hmem
      obtain ⟨hmem, hprop⟩ := hmem
      rw [Bool.and_eq_true] at hprop
      exact ⟨of_decide_eq_true hprop.1, of_decide_eq_true hprop.2, hmem⟩
    · intro i hmem hid htext
      rw [(List.mergeSort_perm _ _).mem_iff, List.mem_filter]
      exact ⟨hmem, by rw [Bool.and_eq_true, decide_eq_true_eq, decide_eq_true_eq]
                      exact ⟨hid, htext⟩⟩
    · intro hnodup
      have hsorted : ((ideas.filter fun i => decide (i.id ≠ id) && decide (i.text ≠ "")).mergeSort
          (fun a b => decide (a.id ≤ b.id))).Pairwise
            (fun a b => decide (a.id ≤ b.id) = true) := by
        refine List.sorted_mergeSort ?_ ?_ _
        · intro a b c hab hbc
          rw [decide_eq_true_eq] at hab hbc ⊢
          exact le_trans hab hbc
        · intro a b
          rw [Bool.or_eq_true, decide_eq_true_eq, decide_eq_true_eq]
          exact Nat.le_total _ _
      have hne : ((ideas.filter fun i => decide (i.id ≠ id) && decide (i.text ≠ "")).mergeSort
          (fun a b => decide (a.id ≤ b.id))).Pairwise (fun a b => a.id ≠ b.id) := by
        have h0 : ideas.Pairwise (fun a b => a.id ≠ b.id) := List.pairwise_map.mp hnodup
        have h1 : (ideas.filter
            fun i => decide (i.id ≠ id) && decide (i.text ≠ "")).Pairwise
              (fun a b => a.id ≠ b.id) :=
          h0.sublist (List.filter_sublist _)
        exact ((List.mergeSort_perm _ _).pairwise_iff
          (by intro a b hab; exact Ne.symm hab)).mpr h1
      refine (hsorted.and hne).imp ?_
      intro a b hab
      rw [decide_eq_true_eq] at hab
      exact lt_of_le_of_ne hab.1 hab.2
  · intro h
    unfold getHistoryAll getHistoryFor
    have : (ideas.filter fun i => decide (i.text ≠ ""))
        = ideas.filter fun i => decide (i.id ≠ id) && decide (i.text ≠ "") := by
      apply List.filter_congr
      intro i hi
      by_cases hid : i.id = id
      · have htext : i.text = "" := h i hi hid
        rw [htext]
        simp
      · simp [hid]
    rw [this]

/-- Concrete instantiation of the C9 theorem: a two-node store where node
7 is the (empty) node being generated — the history is exactly node 0's
text, and the id-free variant agrees. -/
theorem c9_witness :
    (∃ l : List Idea,
        getHistoryFor 7 [sampleIdea, c4Idea] = l.map Idea.text ∧
        l.Perm ([sampleIdea, c4Idea].filter
          fun i => decide (i.id ≠ 7) && decide (i.text ≠ "")) ∧
        (∀ i ∈ l, i.id ≠ 7 ∧ i.text ≠ "" ∧ i ∈ [sampleIdea, c4Idea]) ∧
        (∀ i ∈ [sampleIdea, c4Idea], i.id ≠ 7 → i.text ≠ "" → i ∈ l) ∧
        (([sampleIdea, c4Idea].map Idea.id).Nodup → l.Pairwise fun a b => a.id < b.id)) ∧
    ((∀ i ∈ [sampleIdea, c4Idea], i.id = 7 → i.text = "") →
      getHistoryAll [sampleIdea, c4Idea] = getHistoryFor 7 [sampleIdea, c4Idea]) :=
  c9_history 7 [sampleIdea, c4Idea]

end Gridscape
